import Mathlib

/-!
Verification of `jina/hubble/hubapi.py` (local executor-package cache and
secret vault).

The on-disk state of the hub root is embedded shallowly:

* directory and file names are `List Char` (`Str` below);
* the hub root is a `HubState`: an association list of package directories
  (name of the directory, i.e. the executor uuid, paired with the unpacked
  bundle it holds), the list of `dist-info` marker directory names, and a
  counter of how many times the archive unpacker has run;
* every external collaborator that can fail (the unpacker, `pip`,
  `shutil.copyfile`, `mkdir`) is driven by an `Env` record saying whether the
  corresponding call raises, so a single Lean function covers all control
  paths of `install_local`;
* `shutil.rmtree` raises `FileNotFoundError` on an absent path, which the
  model reproduces (`rmtreePkg` / `rmtreeMarker`);
* the secret vault (`dump_secret` / `load_secret`) is embedded with the key
  file content as a raw character string, parsed exactly as the Python code
  parses it: `readline().strip().split(tab)` with a two-element unpacking.

The Fernet cipher and `random_identity` are external libraries.  Modelled
from the spec: encryption is an injective pairing of key and plaintext such
that decryption with the right key restores the plaintext; `unpack_package`
(defined in `jina/hubble/helper.py`, outside this repository snapshot) is
all-or-nothing: on success it populates the package directory, on failure it
leaves nothing behind.
-/

/-- Names and file contents are character lists. -/
abbrev Str := List Char

/-- Removes `p` from the front of `n`; `some rest` when `p` is a prefix. -/
def dropPre : Str → Str → Option Str
  | [], n => some n
  | _ :: _, [] => none
  | p :: ps, c :: cs => if p = c then dropPre ps cs else none

/-- Tests whether `s` is a suffix of `n`. -/
def isSuf (s n : Str) : Bool := (dropPre s.reverse n.reverse).isSome

/-- Python whitespace characters stripped by `str.strip()`. -/
def isPySpace (c : Char) : Bool :=
  c = ' ' || c = '\t' || c = '\n' || c = '\r' || c = Char.ofNat 11 || c = Char.ofNat 12

/-- Python `str.strip()`: drop leading and trailing whitespace. -/
def pyStrip (s : Str) : Str :=
  ((s.dropWhile isPySpace).reverse.dropWhile isPySpace).reverse

/-- Python `str.split(tab)`: split on every tab character. -/
def splitTab : Str → List Str
  | [] => [[]]
  | c :: cs =>
    match splitTab cs with
    | [] => [[]]
    | r :: rs => if c = '\t' then [] :: r :: rs else (c :: r) :: rs

/-- A string with no Python whitespace character (in particular no tab). -/
@[reducible] def noWs (s : Str) : Prop := ∀ c ∈ s, isPySpace c = false

/-- The literal suffix of marker directory names. -/
def distInfo : Str := ['.', 'd', 'i', 's', 't', '-', 'i', 'n', 'f', 'o']

/-- Name of the marker directory for a uuid and tag (`get_dist_path`). -/
def markerName (u t : Str) : Str := u ++ '-' :: (t ++ distInfo)

/-- The glob `uuid-*.dist-info` used by `install_local` and `uninstall_local`
to clean existing dist-info directories. -/
def matchDist (u n : Str) : Bool :=
  match dropPre (u ++ ['-']) n with
  | none => false
  | some rest => isSuf distInfo rest

/-- The glob `*-v*.dist-info` used by `list_local`: true when the name can be
split as anything, then `-v`, then anything, then `.dist-info`. -/
def hasTagGlob : Str → Bool
  | [] => false
  | c :: cs =>
    (match dropPre ['-', 'v'] (c :: cs) with
     | some rest => isSuf distInfo rest
     | none => false) || hasTagGlob cs

/-- Errors a Python call in `hubapi.py` can raise.  `fileNotFound` is the
`FileNotFoundError` that `shutil.rmtree` raises on an absent path; the other
constructors stand for failures of the external collaborators. -/
inductive PyErr where
  | fileNotFound
  | unpackError
  | depsError
  | copyError
  | mkdirError
deriving DecidableEq, Repr

/-- An executor bundle (the zip package).  `content` is an abstract payload
identifying the unpacked tree; the two flags record whether the archive's top
level carries a `requirements` descriptor and a manifest descriptor. -/
structure Bundle where
  content : Nat
  hasRequirements : Bool
  hasManifest : Bool
deriving DecidableEq, Repr

/-- Outcome oracle for the external calls made inside `install_local`'s try
block, in program order: the unpacker, the marker `mkdir`, the dependency
installer (`pip`), the copy of the requirements descriptor and the copy of
the manifest descriptor.  `none` means the call succeeds, `some e` that it
raises `e`. -/
structure Env where
  unpack : Option PyErr
  mkdirM : Option PyErr
  deps : Option PyErr
  copyReq : Option PyErr
  copyManifest : Option PyErr
deriving DecidableEq, Repr

/-- The hub root directory: package content directories (keyed by uuid),
marker (`dist-info`) directory names, and a count of completed unpacker
runs (used to state that an install extracts at most once). -/
structure HubState where
  pkgs : List (Str × Bundle)
  markers : List Str
  unpackCount : Nat
deriving DecidableEq, Repr

/-- Removes the package directory entry of `u` (the effect of
`shutil.rmtree(pkg_path)`). -/
def removePkgs (u : Str) (l : List (Str × Bundle)) : List (Str × Bundle) :=
  l.filter (fun p => !decide (p.1 = u))

/-- Removes every marker matching the glob `u-*.dist-info`. -/
def removeMarkers (u : Str) (ms : List Str) : List Str :=
  ms.filter (fun n => !matchDist u n)

/-- The cleanup performed by `uninstall_local` and by the pre-extraction part
of `install_local`: delete all dist-info directories of `u` and the package
directory of `u` if present. -/
def removeAll (u : Str) (st : HubState) : HubState :=
  { st with markers := removeMarkers u st.markers, pkgs := removePkgs u st.pkgs }

/-- Content of the package directory of `u`, when that directory exists. -/
def lookupPkg (st : HubState) (u : Str) : Option Bundle :=
  (st.pkgs.find? (fun p => decide (p.1 = u))).map (fun p => p.2)

/-- Python `pkg_path.exists()`. -/
def pkgExists (st : HubState) (u : Str) : Bool :=
  (st.pkgs.find? (fun p => decide (p.1 = u))).isSome

/-- Python `pkg_dist_path.mkdir(parents=False, exist_ok=True)`: create the
marker directory, a no-op when it already exists. -/
def addMarker (st : HubState) (n : Str) : HubState :=
  if n ∈ st.markers then st else { st with markers := n :: st.markers }

/-- `shutil.rmtree(pkg_path)` without an existence guard: removing an absent
package directory raises `FileNotFoundError`. -/
def rmtreePkg (st : HubState) (u : Str) : HubState × Option PyErr :=
  if pkgExists st u then ({ st with pkgs := removePkgs u st.pkgs }, none)
  else (st, some .fileNotFound)

/-- `shutil.rmtree(pkg_dist_path)` without an existence guard. -/
def rmtreeMarker (st : HubState) (n : Str) : HubState × Option PyErr :=
  if n ∈ st.markers then
    ({ st with markers := st.markers.filter (fun m => !decide (m = n)) }, none)
  else (st, some .fileNotFound)

/-- Final statement of `install_local`'s try block: if a manifest descriptor
is present inside the package directory, copy it into the marker.  The copy
is a provenance side effect outside the modelled state, so only the raised
error matters. -/
def manifestStep (env : Env) (b : Bundle) (st : HubState) : HubState × Option PyErr :=
  if b.hasManifest then
    match env.copyManifest with
    | some e => (st, some e)
    | none => (st, none)
  else (st, none)

/-- Dependency-installation statements of the try block: when `install_deps`
is set and the unpacked bundle carries a requirements descriptor, run the
installer and copy the descriptor into the marker; then run `manifestStep`. -/
def depsStep (env : Env) (b : Bundle) (installDeps : Bool) (st : HubState) :
    HubState × Option PyErr :=
  if installDeps && b.hasRequirements then
    match env.deps with
    | some e => (st, some e)
    | none =>
      match env.copyReq with
      | some e => (st, some e)
      | none => manifestStep env b st
  else manifestStep env b st

/-- The try block of `install_local`, entered with the already-cleaned state:
unpack the bundle into the package directory (all-or-nothing, modelled from
the spec's Unpacker contract), create the marker directory, then run the
dependency and manifest steps.  Returns the state reached together with the
raised error, if any. -/
def installBody (env : Env) (b : Bundle) (u t : Str) (installDeps : Bool)
    (st : HubState) : HubState × Option PyErr :=
  match env.unpack with
  | some e => (st, some e)
  | none =>
    let st1 : HubState :=
      { st with pkgs := (u, b) :: removePkgs u st.pkgs,
                unpackCount := st.unpackCount + 1 }
    match env.mkdirM with
    | some e => (st1, some e)
    | none => depsStep env b installDeps (addMarker st1 (markerName u t))

/-- The except block of `install_local`: `shutil.rmtree(pkg_path)` then
`shutil.rmtree(pkg_dist_path)` then re-raise `e`.  Either `rmtree` raises
`FileNotFoundError` when its target is absent, in which case that secondary
error is the one propagated. -/
def rollback (st : HubState) (u mn : Str) (e : PyErr) : HubState × Option PyErr :=
  match rmtreePkg st u with
  | (st2, some e2) => (st2, some e2)
  | (st2, none) =>
    match rmtreeMarker st2 mn with
    | (st3, some e3) => (st3, some e3)
    | (st3, none) => (st3, some e)

/-- `install_local(zip_package, uuid, tag, force, install_deps)`: early
return when the marker exists and `force` is unset; otherwise clean every
dist-info of `uuid` and the package directory, run the try block, and on
failure run the except block. -/
def install_local (env : Env) (zipPackage : Bundle) (uuid tag : Str)
    (force installDeps : Bool) (st : HubState) : HubState × Option PyErr :=
  let mn := markerName uuid tag
  if mn ∈ st.markers && !force then (st, none)
  else
    match installBody env zipPackage uuid tag installDeps (removeAll uuid st) with
    | (st2, none) => (st2, none)
    | (st2, some e) => rollback st2 uuid mn e

/-- `uninstall_local(uuid)`: remove every dist-info directory matching
`uuid-*.dist-info` and the package directory if it exists. -/
def uninstall_local (uuid : Str) (st : HubState) : HubState := removeAll uuid st

/-- `list_local()`: the marker directory names matching `*-v*.dist-info`.
The Python function returns these `Path` objects themselves, unparsed. -/
def list_local (st : HubState) : List Str := st.markers.filter hasTagGlob

/-- Python truthiness of the optional `tag` argument (`None` and the empty
string are falsy). -/
def tagTruthy : Option Str → Bool
  | none => false
  | some t => !t.isEmpty

/-- `resolve_local(uuid, tag)`: raise `FileNotFoundError` when the package
directory is absent, or when a truthy tag is given and its marker is absent;
otherwise return the package path. -/
def resolve_local (st : HubState) (uuid : Str) (tag : Option Str) : Except PyErr Str :=
  if !pkgExists st uuid
      || (tagTruthy tag && !decide (markerName uuid (tag.getD []) ∈ st.markers)) then
    .error .fileNotFound
  else .ok uuid

/-- `exist_local(uuid, tag)`: `resolve_local` with `FileNotFoundError`
mapped to `False` (the only error `resolve_local` raises). -/
def exist_local (st : HubState) (uuid : Str) (tag : Option Str) : Bool :=
  match resolve_local st uuid tag with
  | .ok _ => true
  | .error _ => false

/-- State after a non-early, fully successful `install_local env b u t _ _ st`:
old dist-info directories of `u` and the old package directory are gone, the
package directory holds `b`, the new marker exists, and the unpacker ran
exactly once more. -/
def installedState (b : Bundle) (u t : Str) (st : HubState) : HubState :=
  { pkgs := (u, b) :: removePkgs u st.pkgs,
    markers := markerName u t :: removeMarkers u st.markers,
    unpackCount := st.unpackCount + 1 }

/-- Vault state for one working directory: content of the first line of the
`secret.key` file under the hidden config directory (`none` when the file is
absent), and the records written to the hub root (`local_id.json` files,
modelled as an association list from local id to the pair of the stored
`uuid8` and the stored `encrypted_secret`). -/
structure VaultState where
  keyFile : Option Str
  records : List (Str × (Str × Str))
deriving DecidableEq, Repr

/-- Randomness oracle for `dump_secret`: the identity that `random_identity()`
returns and the key that `Fernet.generate_key()` returns on the run where the
key file does not yet exist. -/
structure VaultEnv where
  freshId : Str
  freshKey : Str
deriving DecidableEq, Repr

/-- Modelled from the spec: Fernet encryption of `s` under `key` (the
`cryptography` library is external).  The ciphertext determines the plaintext
given the key, and decryption with the generating key restores `s`. -/
def fernetEncrypt (key s : Str) : Str := key ++ '|' :: s

/-- Modelled from the spec: Fernet decryption; `none` stands for the
`InvalidToken` error raised on a ciphertext not produced under `key`. -/
def fernetDecrypt (key c : Str) : Option Str := dropPre (key ++ ['|']) c

/-- Parsing of the key file line done by both `load_secret` and
`dump_secret`: `f.readline().strip().split(tab)` destructured into exactly
two variables.  `none` when the unpacking raises `ValueError`. -/
def parseKeyLine (s : Str) : Option (Str × Str) :=
  match splitTab (pyStrip s) with
  | [a, b] => some (a, b)
  | _ => none

/-- Writing `local_config_file`: record `(uuid8, ct)` stored under `localId`,
overwriting any previous record for that id. -/
def writeRecord (st : VaultState) (localId uuid8 ct : Str) : VaultState :=
  { st with
    records := (localId, (uuid8, ct)) :: st.records.filter (fun r => !decide (r.1 = localId)) }

/-- `dump_secret(work_path, uuid8, secret)`: when the key file exists, parse
it (silently returning on any parse failure, writing nothing) and use the
stored key; otherwise generate a fresh identity and key and write them as the
file's single line.  Then write the record with the encrypted secret. -/
def dump_secret (env : VaultEnv) (st : VaultState) (uuid8 secret : Str) : VaultState :=
  match st.keyFile with
  | some line =>
    match parseKeyLine line with
    | none => st
    | some (localId, key) => writeRecord st localId uuid8 (fernetEncrypt key secret)
  | none =>
    let localId := env.freshId
    let key := env.freshKey
    let st1 := { st with keyFile := some (localId ++ '\t' :: key) }
    writeRecord st1 localId uuid8 (fernetEncrypt key secret)

/-- `load_secret(work_path)`: returns the pair `(uuid8, secret)` where either
component may be Python `None`, or raises (`.error ()`) when the key file is
present but cannot be parsed, or when decryption fails. -/
def load_secret (st : VaultState) : Except Unit (Option Str × Option Str) :=
  match st.keyFile with
  | none => .ok (none, none)
  | some line =>
    match parseKeyLine line with
    | none => .error ()
    | some (localId, key) =>
      match st.records.find? (fun r => decide (r.1 = localId)) with
      | none => .ok (none, none)
      | some r =>
        if r.2.2.isEmpty then .ok (some r.2.1, none)
        else
          match fernetDecrypt key r.2.2 with
          | some s => .ok (some r.2.1, some s)
          | none => .error ()

/-- Environment in which every external call succeeds. -/
def envOk : Env := ⟨none, none, none, none, none⟩

/-- Environment in which the unpacker raises. -/
def envUnpackFail : Env := ⟨some .unpackError, none, none, none, none⟩

/-- Environment in which the dependency installer raises. -/
def envDepsFail : Env := ⟨none, none, some .depsError, none, none⟩

/-- Environment in which the manifest copy raises. -/
def envManifestFail : Env := ⟨none, none, none, none, some .copyError⟩

/-- A bundle with no requirements descriptor and no manifest. -/
def bPlain : Bundle := ⟨1, false, false⟩

/-- A bundle carrying a requirements descriptor. -/
def bReq : Bundle := ⟨2, true, false⟩

/-- A bundle carrying a manifest descriptor. -/
def bMan : Bundle := ⟨3, false, true⟩

/-- A second bundle used when reinstalling under another tag. -/
def bSecond : Bundle := ⟨4, false, false⟩

/-- An empty hub root. -/
def emptyHub : HubState := ⟨[], [], 0⟩

theorem dropPre_append (p r : Str) : dropPre p (p ++ r) = some r := by
  induction p with
  | nil => rfl
  | cons c cs ih => simp [dropPre, ih]

theorem dropPre_eq_some : ∀ (p n r : Str), dropPre p n = some r → n = p ++ r
  | [], n, r, h => by simpa [dropPre] using h
  | _ :: _, [], _, h => by simp [dropPre] at h
  | p :: ps, c :: cs, r, h => by
    by_cases hc : p = c
    · subst hc
      simp only [dropPre, if_pos rfl] at h
      simpa using dropPre_eq_some ps cs r h
    · simp [dropPre, hc] at h

theorem isSuf_append (r s : Str) : isSuf s (r ++ s) = true := by
  simp [isSuf, List.reverse_append, dropPre_append]

theorem isSuf_exists (s n : Str) (h : isSuf s n = true) : ∃ r, n = r ++ s := by
  unfold isSuf at h
  cases hd : dropPre s.reverse n.reverse with
  | none => simp [hd] at h
  | some rest =>
    refine ⟨rest.reverse, ?_⟩
    have h1 := dropPre_eq_some _ _ _ hd
    have h2 : n.reverse.reverse = (s.reverse ++ rest).reverse := by rw [h1]
    simpa [List.reverse_append] using h2

theorem matchDist_markerName (u t : Str) : matchDist u (markerName u t) = true := by
  have h : markerName u t = (u ++ ['-']) ++ (t ++ distInfo) := by
    simp [markerName]
  rw [matchDist, h, dropPre_append]
  exact isSuf_append t distInfo

theorem matchDist_iff (u n : Str) :
    matchDist u n = true ↔ ∃ s, n = u ++ '-' :: (s ++ distInfo) := by
  constructor
  · intro h
    rw [matchDist] at h
    cases hd : dropPre (u ++ ['-']) n with
    | none => rw [hd] at h; simp at h
    | some rest =>
      rw [hd] at h
      obtain ⟨r, hr⟩ := isSuf_exists _ _ h
      refine ⟨r, ?_⟩
      have := dropPre_eq_some _ _ _ hd
      simp [this, hr]
  · rintro ⟨s, rfl⟩
    have h : u ++ '-' :: (s ++ distInfo) = (u ++ ['-']) ++ (s ++ distInfo) := by simp
    rw [matchDist, h, dropPre_append]
    exact isSuf_append s distInfo

theorem hasTagGlob_iff (n : Str) :
    hasTagGlob n = true ↔ ∃ a b, n = a ++ '-' :: 'v' :: (b ++ distInfo) := by
  induction n with
  | nil =>
    simp only [hasTagGlob]
    constructor
    · intro h; exact absurd h (by simp)
    · rintro ⟨a, b, hab⟩
      exact absurd hab.symm (by simp)
  | cons c cs ih =>
    constructor
    · intro h
      rw [hasTagGlob] at h
      rcases Bool.or_eq_true_iff.mp h with h1 | h2
      · cases hd : dropPre ['-', 'v'] (c :: cs) with
        | none => rw [hd] at h1; simp at h1
        | some rest =>
          rw [hd] at h1
          obtain ⟨b, hb⟩ := isSuf_exists _ _ h1
          have he := dropPre_eq_some _ _ _ hd
          exact ⟨[], b, by simp [he, hb]⟩
      · obtain ⟨a, b, hab⟩ := ih.mp h2
        exact ⟨c :: a, b, by simp [hab]⟩
    · rintro ⟨a, b, hab⟩
      rw [hasTagGlob]
      cases a with
      | nil =>
        apply Bool.or_eq_true_iff.mpr
        left
        simp only [List.nil_append] at hab
        cases hab
        have hd : dropPre ['-', 'v'] ('-' :: 'v' :: (b ++ distInfo)) = some (b ++ distInfo) :=
          dropPre_append ['-', 'v'] (b ++ distInfo)
        rw [hd]
        exact isSuf_append b distInfo
      | cons a0 as =>
        apply Bool.or_eq_true_iff.mpr
        right
        have : cs = as ++ '-' :: 'v' :: (b ++ distInfo) := by
          simpa using congrArg List.tail hab
        exact ih.mpr ⟨as, b, this⟩

theorem filter_idem {α : Type} (p : α → Bool) (l : List α) :
    (l.filter p).filter p = l.filter p := by
  induction l with
  | nil => rfl
  | cons a as ih => by_cases hp : p a <;> simp [List.filter_cons, hp, ih]

theorem filter_ne_of_not_mem {mn : Str} {ms : List Str} (h : mn ∉ ms) :
    ms.filter (fun m => !decide (m = mn)) = ms := by
  induction ms with
  | nil => rfl
  | cons a as ih =>
    have ha : a ≠ mn := fun he => h (he ▸ List.mem_cons_self a as)
    have h2 : mn ∉ as := fun hm => h (List.mem_cons_of_mem a hm)
    simp [List.filter_cons, ha, ih h2]

theorem find?_removePkgs (u : Str) (l : List (Str × Bundle)) :
    (removePkgs u l).find? (fun p => decide (p.1 = u)) = none := by
  rw [List.find?_eq_none]
  intro x hx
  have hm := (List.mem_filter.mp hx).2
  simpa using hm

theorem removePkgs_removePkgs (u : Str) (l : List (Str × Bundle)) :
    removePkgs u (removePkgs u l) = removePkgs u l :=
  filter_idem _ l

theorem not_mem_removeMarkers (u t : Str) (ms : List Str) :
    markerName u t ∉ removeMarkers u ms := by
  intro h
  have hm := (List.mem_filter.mp h).2
  rw [matchDist_markerName] at hm
  simp at hm

theorem mem_removeMarkers (u n : Str) (ms : List Str) :
    n ∈ removeMarkers u ms ↔ n ∈ ms ∧ matchDist u n = false := by
  simp [removeMarkers, List.mem_filter]

theorem rollback_snd_isSome (st : HubState) (u mn : Str) (e : PyErr) :
    (rollback st u mn e).2.isSome = true := by
  unfold rollback
  repeat' split
  all_goals rfl

theorem manifestStep_fst (env : Env) (b : Bundle) (st : HubState) :
    (manifestStep env b st).1 = st := by
  unfold manifestStep
  repeat' split
  all_goals rfl

theorem depsStep_fst (env : Env) (b : Bundle) (d : Bool) (st : HubState) :
    (depsStep env b d st).1 = st := by
  unfold depsStep manifestStep
  repeat' split
  all_goals rfl

theorem install_noop (env : Env) (b : Bundle) (u t : Str) (d : Bool) (st : HubState)
    (h1 : markerName u t ∈ st.markers) :
    install_local env b u t false d st = (st, none) := by
  unfold install_local
  rw [if_pos (by simp [h1])]

theorem installBody_success (env : Env) (b : Bundle) (u t : Str) (d : Bool)
    (st stB : HubState) (h : installBody env b u t d st = (stB, none)) :
    env.unpack = none ∧ stB = addMarker
      { st with pkgs := (u, b) :: removePkgs u st.pkgs,
                unpackCount := st.unpackCount + 1 } (markerName u t) := by
  cases hu : env.unpack with
  | some e0 => simp [installBody, hu] at h
  | none =>
    cases hm : env.mkdirM with
    | some e0 => simp [installBody, hu, hm] at h
    | none =>
      refine ⟨rfl, ?_⟩
      have h2 : installBody env b u t d st = depsStep env b d
          (addMarker { st with pkgs := (u, b) :: removePkgs u st.pkgs,
                               unpackCount := st.unpackCount + 1 } (markerName u t)) := by
        simp [installBody, hu, hm]
      rw [h2] at h
      have h1 := congrArg Prod.fst h
      rw [depsStep_fst] at h1
      exact h1.symm

theorem cleaned_body_state (b : Bundle) (u t : Str) (st : HubState) :
    addMarker { removeAll u st with
                pkgs := (u, b) :: removePkgs u (removeAll u st).pkgs,
                unpackCount := (removeAll u st).unpackCount + 1 }
      (markerName u t) = installedState b u t st := by
  unfold addMarker
  rw [if_neg]
  · unfold installedState removeAll
    simp [removePkgs_removePkgs]
  · simp only [removeAll]
    exact not_mem_removeMarkers u t st.markers

theorem install_success_cases (env : Env) (b : Bundle) (u t : Str) (f d : Bool)
    (st st' : HubState) (h : install_local env b u t f d st = (st', none)) :
    (markerName u t ∈ st.markers ∧ f = false ∧ st' = st) ∨
      st' = installedState b u t st := by
  by_cases hg : (decide (markerName u t ∈ st.markers) && !f) = true
  · left
    obtain ⟨h1, h2⟩ := Bool.and_eq_true_iff.mp hg
    have hmem : markerName u t ∈ st.markers := by simpa using h1
    have hf : f = false := by simpa using h2
    refine ⟨hmem, hf, ?_⟩
    unfold install_local at h
    rw [if_pos hg] at h
    exact (Prod.mk.inj h).1.symm
  · right
    unfold install_local at h
    rw [if_neg hg] at h
    rcases hb : installBody env b u t d (removeAll u st) with ⟨stB, rB⟩
    rw [hb] at h
    cases rB with
    | some e0 =>
      have hs := rollback_snd_isSome stB u (markerName u t) e0
      rw [show rollback stB u (markerName u t) e0 = (st', none) from h] at hs
      simp at hs
    | none =>
      have hst : stB = st' := (Prod.mk.inj h).1
      obtain ⟨-, hB⟩ := installBody_success env b u t d (removeAll u st) stB hb
      rw [← hst, hB]
      exact cleaned_body_state b u t st

theorem pkgExists_removeAll (u : Str) (st : HubState) :
    pkgExists (removeAll u st) u = false := by
  simp [pkgExists, removeAll, find?_removePkgs]

theorem rollback_cleaned (u mn : Str) (st : HubState) (e : PyErr) :
    rollback (removeAll u st) u mn e = (removeAll u st, some .fileNotFound) := by
  unfold rollback rmtreePkg
  rw [pkgExists_removeAll u st]
  simp

theorem removePkgs_cons_self (u : Str) (b : Bundle) (l : List (Str × Bundle)) :
    removePkgs u ((u, b) :: l) = removePkgs u l := by
  simp [removePkgs, List.filter_cons]

theorem pkgExists_cons_self (u : Str) (b : Bundle) (l : List (Str × Bundle))
    (ms : List Str) (c : Nat) :
    pkgExists ⟨(u, b) :: l, ms, c⟩ u = true := by
  simp [pkgExists, List.find?_cons_of_pos]

theorem rollback_installed (b : Bundle) (u t : Str) (st : HubState) (e : PyErr) :
    rollback (installedState b u t st) u (markerName u t) e
      = (⟨removePkgs u st.pkgs, removeMarkers u st.markers, st.unpackCount + 1⟩, some e) := by
  unfold rollback rmtreePkg
  rw [show pkgExists (installedState b u t st) u = true from
    pkgExists_cons_self u b _ _ _]
  simp only [if_true]
  unfold rmtreeMarker
  rw [if_pos (by simp [installedState] : markerName u t ∈ (installedState b u t st).markers)]
  simp only [installedState]
  rw [removePkgs_cons_self, removePkgs_removePkgs]
  simp [List.filter_cons, filter_ne_of_not_mem (not_mem_removeMarkers u t st.markers)]

theorem rollback_mkdirFailState (b : Bundle) (u mn : Str) (st : HubState) (e : PyErr)
    (hmn : mn ∉ removeMarkers u st.markers) :
    rollback { removeAll u st with
               pkgs := (u, b) :: removePkgs u (removeAll u st).pkgs,
               unpackCount := (removeAll u st).unpackCount + 1 } u mn e
      = (⟨removePkgs u st.pkgs, removeMarkers u st.markers, st.unpackCount + 1⟩,
         some .fileNotFound) := by
  unfold rollback rmtreePkg
  rw [show pkgExists { removeAll u st with
               pkgs := (u, b) :: removePkgs u (removeAll u st).pkgs,
               unpackCount := (removeAll u st).unpackCount + 1 } u = true from
    pkgExists_cons_self u b _ _ _]
  simp only [if_true]
  unfold rmtreeMarker
  rw [if_neg (by simpa [removeAll] using hmn)]
  simp [removeAll, removePkgs_cons_self, removePkgs_removePkgs]

theorem install_fail_state (env : Env) (b : Bundle) (u t : Str) (f d : Bool)
    (st st' : HubState) (e : PyErr)
    (h : install_local env b u t f d st = (st', some e)) :
    st'.pkgs = removePkgs u st.pkgs ∧ st'.markers = removeMarkers u st.markers ∧
      (env.unpack = none → env.mkdirM = none →
        (installBody env b u t d (removeAll u st)).2 = some e) := by
  by_cases hg : (decide (markerName u t ∈ st.markers) && !f) = true
  · unfold install_local at h
    rw [if_pos hg] at h
    exact absurd (Prod.mk.inj h).2 (by simp)
  · unfold install_local at h
    rw [if_neg hg] at h
    cases hu : env.unpack with
    | some e0 =>
      have hb : installBody env b u t d (removeAll u st) = (removeAll u st, some e0) := by
        simp [installBody, hu]
      rw [hb] at h
      have h2 : rollback (removeAll u st) u (markerName u t) e0 = (st', some e) := h
      rw [rollback_cleaned] at h2
      obtain ⟨h3, -⟩ := Prod.mk.inj h2
      refine ⟨?_, ?_, fun hun _ => absurd hun (by simp)⟩
      · rw [← h3]; rfl
      · rw [← h3]; rfl
    | none =>
      cases hm : env.mkdirM with
      | some e0 =>
        have hb : installBody env b u t d (removeAll u st) =
            ({ removeAll u st with
               pkgs := (u, b) :: removePkgs u (removeAll u st).pkgs,
               unpackCount := (removeAll u st).unpackCount + 1 }, some e0) := by
          simp [installBody, hu, hm]
        rw [hb] at h
        have h2 := rollback_mkdirFailState b u (markerName u t) st e0
          (not_mem_removeMarkers u t st.markers)
        rw [show rollback { removeAll u st with
               pkgs := (u, b) :: removePkgs u (removeAll u st).pkgs,
               unpackCount := (removeAll u st).unpackCount + 1 } u (markerName u t) e0
            = (st', some e) from h] at h2
        obtain ⟨h3, -⟩ := Prod.mk.inj h2.symm
        refine ⟨?_, ?_, fun _ hmk => absurd hmk (by simp)⟩
        · rw [← h3]
        · rw [← h3]
      | none =>
        have hb : installBody env b u t d (removeAll u st) = depsStep env b d
            (addMarker { removeAll u st with
                         pkgs := (u, b) :: removePkgs u (removeAll u st).pkgs,
                         unpackCount := (removeAll u st).unpackCount + 1 }
              (markerName u t)) := by
          simp [installBody, hu, hm]
        rw [cleaned_body_state] at hb
        rcases hds : depsStep env b d (installedState b u t st) with ⟨stD, rD⟩
        have hD : stD = installedState b u t st := by
          have h1 := congrArg Prod.fst hds
          rw [depsStep_fst] at h1
          exact h1.symm
        rw [hb, hds] at h
        cases rD with
        | none => exact absurd (Prod.mk.inj h).2 (by simp)
        | some e0 =>
          have h2 : rollback stD u (markerName u t) e0 = (st', some e) := h
          rw [hD, rollback_installed] at h2
          obtain ⟨h3, h4⟩ := Prod.mk.inj h2
          refine ⟨?_, ?_, fun _ _ => ?_⟩
          · rw [← h3]
          · rw [← h3]
          · rw [hb, hds]
            simpa using h4

theorem install_unpackFail (env : Env) (b : Bundle) (u t : Str) (f d : Bool)
    (st : HubState) (e0 : PyErr)
    (hno : markerName u t ∉ st.markers) (hu : env.unpack = some e0) :
    install_local env b u t f d st = (removeAll u st, some .fileNotFound) := by
  unfold install_local
  rw [if_neg (by simp [hno])]
  have hb : installBody env b u t d (removeAll u st) = (removeAll u st, some e0) := by
    simp [installBody, hu]
  rw [hb]
  exact rollback_cleaned u (markerName u t) st e0

theorem exist_false_of_no_pkg (st : HubState) (u : Str) (t : Option Str)
    (h : st.pkgs.find? (fun p => decide (p.1 = u)) = none) :
    exist_local st u t = false := by
  unfold exist_local resolve_local
  rw [show pkgExists st u = false from by simp [pkgExists, h]]
  simp

theorem find?_removePkgs_self (u : Str) (l : List (Str × Bundle)) (ms : List Str) (c : Nat) :
    (HubState.mk (removePkgs u l) ms c).pkgs.find? (fun p => decide (p.1 = u)) = none :=
  find?_removePkgs u l

theorem splitTab_ne_nil (s : Str) : splitTab s ≠ [] := by
  cases s with
  | nil => simp [splitTab]
  | cons c cs =>
    cases h : splitTab cs with
    | nil => simp [splitTab, h]
    | cons r rs => by_cases hc : c = '\t' <;> simp [splitTab, h, hc]

theorem splitTab_no_tab (s : Str) (h : '\t' ∉ s) : splitTab s = [s] := by
  induction s with
  | nil => rfl
  | cons c cs ih =>
    have hc : c ≠ '\t' := fun he => h (he ▸ List.mem_cons_self c cs)
    have h2 : '\t' ∉ cs := fun hm => h (List.mem_cons_of_mem c hm)
    rw [splitTab, ih h2]
    simp [hc]

theorem splitTab_append (a b : Str) (h : '\t' ∉ a) :
    splitTab (a ++ '\t' :: b) = a :: splitTab b := by
  induction a with
  | nil =>
    simp only [List.nil_append]
    cases hb : splitTab b with
    | nil => exact absurd hb (splitTab_ne_nil b)
    | cons r rs => simp [splitTab, hb]
  | cons c cs ih =>
    have hc : c ≠ '\t' := fun he => h (he ▸ List.mem_cons_self c cs)
    have h2 : '\t' ∉ cs := fun hm => h (List.mem_cons_of_mem c hm)
    rw [List.cons_append, splitTab, ih h2]
    simp [hc]

theorem dropWhile_head_false (p : Char → Bool) (l : Str)
    (h : ∀ c, l.head? = some c → p c = false) : l.dropWhile p = l := by
  cases l with
  | nil => rfl
  | cons c cs => simp [List.dropWhile_cons, h c rfl]

theorem noWs_no_tab (s : Str) (h : noWs s) : '\t' ∉ s := by
  intro hm
  have h1 := h '\t' hm
  have h2 : isPySpace '\t' = true := by decide
  rw [h2] at h1
  simp at h1

theorem pyStrip_keyline (a k : Str) (ha : a ≠ []) (hk : k ≠ [])
    (h1 : noWs a) (h2 : noWs k) :
    pyStrip (a ++ '\t' :: k) = a ++ '\t' :: k := by
  obtain ⟨c, cs, rfl⟩ := List.exists_cons_of_ne_nil ha
  have hkr : k.reverse ≠ [] := by simpa using hk
  obtain ⟨d, ds, hd⟩ := List.exists_cons_of_ne_nil hkr
  have hdm : d ∈ k := by
    rw [← List.mem_reverse, hd]
    exact List.mem_cons_self d ds
  have e1 : ((c :: cs) ++ '\t' :: k).dropWhile isPySpace = (c :: cs) ++ '\t' :: k := by
    apply dropWhile_head_false
    intro x hx
    simp only [List.cons_append, List.head?_cons, Option.some.injEq] at hx
    exact hx ▸ h1 c (List.mem_cons_self c cs)
  have e2 : ((c :: cs) ++ '\t' :: k).reverse.dropWhile isPySpace
      = ((c :: cs) ++ '\t' :: k).reverse := by
    apply dropWhile_head_false
    intro x hx
    rw [List.reverse_append, List.reverse_cons, hd] at hx
    simp only [List.cons_append, List.head?_cons, Option.some.injEq] at hx
    exact hx ▸ h2 d hdm
  rw [pyStrip, e1, e2, List.reverse_reverse]

theorem parse_keyline (a k : Str) (ha : a ≠ []) (hk : k ≠ [])
    (h1 : noWs a) (h2 : noWs k) :
    parseKeyLine (a ++ '\t' :: k) = some (a, k) := by
  rw [parseKeyLine, pyStrip_keyline a k ha hk h1 h2,
      splitTab_append a k (noWs_no_tab a h1), splitTab_no_tab k (noWs_no_tab k h2)]

theorem fernet_roundtrip (key s : Str) :
    fernetDecrypt key (fernetEncrypt key s) = some s := by
  have h : fernetEncrypt key s = (key ++ ['|']) ++ s := by simp [fernetEncrypt]
  rw [fernetDecrypt, h, dropPre_append]

theorem fernetEncrypt_not_empty (key s : Str) : (fernetEncrypt key s).isEmpty = false := by
  cases key <;> simp [fernetEncrypt]

theorem markerName_inj_tag (u t1 t2 : Str) (h : markerName u t1 = markerName u t2) :
    t1 = t2 := by
  unfold markerName at h
  have h1 := List.append_cancel_left h
  have h2 : t1 ++ distInfo = t2 ++ distInfo := by
    simpa using h1
  exact List.append_cancel_right h2

theorem matchDist_of_hyphen_ext (u1 u2 t : Str) (x : Str)
    (hx : u2 = u1 ++ '-' :: x) : matchDist u1 (markerName u2 t) = true := by
  apply (matchDist_iff u1 (markerName u2 t)).mpr
  refine ⟨x ++ '-' :: t, ?_⟩
  rw [markerName, hx]
  simp

theorem matchDist_gives_front (u1 u2 t : Str)
    (h : matchDist u1 (markerName u2 t) = true) :
    (u1 ++ ['-']) <+: (u2 ++ '-' :: t) := by
  obtain ⟨s, hs⟩ := (matchDist_iff u1 (markerName u2 t)).mp h
  rw [markerName] at hs
  have h2 : (u2 ++ '-' :: t) ++ distInfo = (u1 ++ '-' :: s) ++ distInfo := by
    simpa using hs
  have h3 := List.append_cancel_right h2
  exact ⟨s, by simp [h3]⟩

theorem find?_removePkgs_ne (u1 u2 : Str) (l : List (Str × Bundle)) (h : u2 ≠ u1) :
    (removePkgs u1 l).find? (fun p => decide (p.1 = u2))
      = l.find? (fun p => decide (p.1 = u2)) := by
  have hfun : (fun a : Str × Bundle =>
        decide ((!decide (a.1 = u1)) = true ∧ decide (a.1 = u2) = true))
      = (fun a : Str × Bundle => decide (a.1 = u2)) := by
    funext a
    by_cases h2 : a.1 = u2
    · have h3 : ¬(a.1 = u1) := by rw [h2]; exact h
      simp [h2, h3, h]
    · simp [h2]
  rw [removePkgs, List.find?_filter, hfun]

theorem markerName_ne_of_no_ext (u1 u2 t t2 : Str)
    (h : ¬ (u1 ++ ['-']) <+: (u2 ++ '-' :: t2)) :
    markerName u1 t ≠ markerName u2 t2 := by
  intro he
  apply h
  have hm := matchDist_markerName u1 t
  rw [he] at hm
  exact matchDist_gives_front u1 u2 t2 hm

/-- Claim C2: whenever `install_local` raises (in particular when it fails
after extraction begins, e.g. on a dependency-install failure), afterwards
`exist_local` for that uuid and tag is false and neither the package
directory of the uuid nor the marker directory of the pair remains on disk;
`exist_local` is never true for a partially installed package. -/
theorem c2_failed_install_leaves_no_trace (env : Env) (b : Bundle) (u t : Str)
    (f d : Bool) (st st' : HubState) (e : PyErr)
    (h : install_local env b u t f d st = (st', some e)) :
    lookupPkg st' u = none ∧ markerName u t ∉ st'.markers ∧
      exist_local st' u (some t) = false := by
  obtain ⟨h1, h2, -⟩ := install_fail_state env b u t f d st st' e h
  have hfind : st'.pkgs.find? (fun p => decide (p.1 = u)) = none := by
    rw [h1]; exact find?_removePkgs u st.pkgs
  refine ⟨?_, ?_, ?_⟩
  · simp [lookupPkg, hfind]
  · rw [h2]; exact not_mem_removeMarkers u t st.markers
  · exact exist_false_of_no_pkg st' u (some t) hfind

/-- Witness for C2: a concrete install in which the dependency installation
fails, applied to the theorem. -/
theorem c2_witness :
    install_local envDepsFail bReq ['a'] ['v', '1'] false true emptyHub
      = (⟨[], [], 1⟩, some .depsError) ∧
    (lookupPkg (⟨[], [], 1⟩ : HubState) ['a'] = none ∧
      markerName ['a'] ['v', '1'] ∉ (⟨[], [], 1⟩ : HubState).markers ∧
      exist_local ⟨[], [], 1⟩ ['a'] (some ['v', '1']) = false) :=
  ⟨by decide,
    c2_failed_install_leaves_no_trace envDepsFail bReq ['a'] ['v', '1'] false true
      emptyHub ⟨[], [], 1⟩ .depsError (by decide)⟩

/-- Claim C4: if the marker for the pair exists and force is false,
`install_local` is a no-op success; a second install with force false after a
successful fresh install changes no state (so extraction ran exactly once,
witnessed by the unpack counter), and a subsequent successful install with
force true re-extracts and replaces the content. -/
theorem c4_install_idempotent (env1 : Env) (b1 : Bundle) (u t : Str) (d1 : Bool)
    (st st1 : HubState)
    (hfresh : markerName u t ∉ st.markers)
    (hs : install_local env1 b1 u t false d1 st = (st1, none)) :
    st1.unpackCount = st.unpackCount + 1 ∧
    (∀ env0 b0 d0 (st0 : HubState), markerName u t ∈ st0.markers →
        install_local env0 b0 u t false d0 st0 = (st0, none)) ∧
    (∀ env2 b2 d2, install_local env2 b2 u t false d2 st1 = (st1, none)) ∧
    (∀ env3 b3 d3 st3, install_local env3 b3 u t true d3 st1 = (st3, none) →
        st3 = installedState b3 u t st1) := by
  rcases install_success_cases env1 b1 u t false d1 st st1 hs with ⟨hm, -, -⟩ | hI
  · exact absurd hm hfresh
  have hmem : markerName u t ∈ st1.markers := by
    rw [hI]; exact List.mem_cons_self _ _
  refine ⟨by rw [hI]; rfl, ?_, ?_, ?_⟩
  · exact fun env0 b0 d0 st0 h0 => install_noop env0 b0 u t d0 st0 h0
  · exact fun env2 b2 d2 => install_noop env2 b2 u t d2 st1 hmem
  · intro env3 b3 d3 st3 h3
    rcases install_success_cases env3 b3 u t true d3 st1 st3 h3 with ⟨-, hf, -⟩ | hI3
    · exact absurd hf (by simp)
    · exact hI3

/-- Witness for C4: a fresh install of the pair, then the second call with
force false is the identity on the state. -/
theorem c4_witness :
    markerName ['a'] ['v', '1'] ∉ emptyHub.markers ∧
    install_local envOk bPlain ['a'] ['v', '1'] false false emptyHub
      = (installedState bPlain ['a'] ['v', '1'] emptyHub, none) ∧
    install_local envOk bSecond ['a'] ['v', '1'] false false
        (installedState bPlain ['a'] ['v', '1'] emptyHub)
      = (installedState bPlain ['a'] ['v', '1'] emptyHub, none) :=
  ⟨by decide, by decide,
    (c4_install_idempotent envOk bPlain ['a'] ['v', '1'] false emptyHub
      (installedState bPlain ['a'] ['v', '1'] emptyHub) (by decide)
      (by decide)).2.2.1 envOk bSecond false⟩

/-- Counterexample to claim C1: when the unpacker fails, neither the package
directory nor the marker exists, so the rollback's unguarded
`shutil.rmtree(pkg_path)` raises `FileNotFoundError`; the error propagated to
the caller is that secondary cleanup error, not the original unpack failure.
Removal of an already-absent path is not treated as success. -/
theorem c1_counterexample :
    install_local envUnpackFail bPlain ['a'] ['v', '1'] false false emptyHub
      = (emptyHub, some PyErr.fileNotFound) ∧
    (installBody envUnpackFail bPlain ['a'] ['v', '1'] false
        (removeAll ['a'] emptyHub)).2 = some PyErr.unpackError ∧
    PyErr.fileNotFound ≠ PyErr.unpackError := by decide

/-- Claim C1 amended: the rollback removes the package directory and marker
unconditionally.  When the failure happens after the marker was created
(dependency install, requirements copy or manifest copy), both paths exist,
the rollback removes both and the error propagated is the original failure of
the try block.  When the unpacker itself fails, both paths are absent, and
when the marker mkdir fails, the marker is absent: in either case an
unguarded rmtree hits an absent path and the caller receives that
`FileNotFoundError` instead of the original error. -/
theorem c1_amended (env : Env) (b : Bundle) (u t : Str) (f d : Bool)
    (st st' : HubState) (e : PyErr)
    (hno : markerName u t ∉ st.markers)
    (h : install_local env b u t f d st = (st', some e)) :
    (env.unpack = none → env.mkdirM = none →
      st'.pkgs = removePkgs u st.pkgs ∧ st'.markers = removeMarkers u st.markers ∧
        (installBody env b u t d (removeAll u st)).2 = some e) ∧
    (∀ e0, env.unpack = some e0 → e = PyErr.fileNotFound ∧ st' = removeAll u st) ∧
    (∀ e0, env.unpack = none → env.mkdirM = some e0 →
      e = PyErr.fileNotFound ∧
      st' = ⟨removePkgs u st.pkgs, removeMarkers u st.markers, st.unpackCount + 1⟩) := by
  refine ⟨?_, ?_, ?_⟩
  · intro hu hm
    obtain ⟨h1, h2, h3⟩ := install_fail_state env b u t f d st st' e h
    exact ⟨h1, h2, h3 hu hm⟩
  · intro e0 hu
    have h2 := install_unpackFail env b u t f d st e0 hno hu
    rw [h] at h2
    obtain ⟨hA, hB⟩ := Prod.mk.inj h2
    exact ⟨Option.some.inj hB, hA⟩
  · intro e0 hu hm
    have hb : installBody env b u t d (removeAll u st)
        = ({ removeAll u st with
             pkgs := (u, b) :: removePkgs u (removeAll u st).pkgs,
             unpackCount := (removeAll u st).unpackCount + 1 }, some e0) := by
      simp [installBody, hu, hm]
    have hinst : install_local env b u t f d st
        = (⟨removePkgs u st.pkgs, removeMarkers u st.markers, st.unpackCount + 1⟩,
           some PyErr.fileNotFound) := by
      unfold install_local
      rw [if_neg (by simp [hno]), hb]
      exact rollback_mkdirFailState b u (markerName u t) st e0
        (not_mem_removeMarkers u t st.markers)
    rw [h] at hinst
    obtain ⟨hA, hB⟩ := Prod.mk.inj hinst
    exact ⟨Option.some.inj hB, hA⟩

/-- Witness for C1 amended: a concrete failing dependency install, in which
both directories existed at failure time; the original error is the one
propagated. -/
theorem c1_amended_witness :
    markerName ['a'] ['v', '1'] ∉ emptyHub.markers ∧
    install_local envDepsFail bReq ['a'] ['v', '1'] false true emptyHub
      = (⟨[], [], 1⟩, some PyErr.depsError) ∧
    (installBody envDepsFail bReq ['a'] ['v', '1'] true
        (removeAll ['a'] emptyHub)).2 = some PyErr.depsError :=
  ⟨by decide, by decide,
    ((c1_amended envDepsFail bReq ['a'] ['v', '1'] false true emptyHub ⟨[], [], 1⟩
        PyErr.depsError (by decide) (by decide)).1 rfl rfl).2.2⟩

/-- Counterexample to claim C5: with the distinct tags T1 = the empty string
and T2 = v2, both installs succeed, yet `resolve_local` for the empty tag
still succeeds afterwards, because Python treats an empty tag as falsy and
skips the marker check; the claim promised NotFound for every prior distinct
tag. -/
theorem c5_counterexample :
    install_local envOk bPlain ['a'] [] false false emptyHub
      = (installedState bPlain ['a'] [] emptyHub, none) ∧
    install_local envOk bSecond ['a'] ['v', '2'] false false
        (installedState bPlain ['a'] [] emptyHub)
      = (installedState bSecond ['a'] ['v', '2']
          (installedState bPlain ['a'] [] emptyHub), none) ∧
    ([] : Str) ≠ ['v', '2'] ∧
    resolve_local (installedState bSecond ['a'] ['v', '2']
        (installedState bPlain ['a'] [] emptyHub)) ['a'] (some [])
      = .ok ['a'] :=
  ⟨by decide, by decide, by decide, rfl⟩

/-- Claim C5 amended: for every nonempty tag T1 distinct from T2, after a
successful install of the pair with T1 followed by a successful install with
T2 (T2 not already installed), `resolve_local` with T1 fails with NotFound
while `resolve_local` with T2 succeeds, and the shared package directory
holds the bundle of the most recent install.  The restriction to nonempty T1
is forced by Python truthiness: `resolve_local` skips the marker check for an
empty tag. -/
theorem c5_latest_tag_wins (env1 env2 : Env) (b1 b2 : Bundle) (u t1 t2 : Str)
    (f1 f2 d1 d2 : Bool) (st st1 st2 : HubState)
    (h12 : t1 ≠ t2) (h1e : t1 ≠ [])
    (hm2 : markerName u t2 ∉ st.markers)
    (hs1 : install_local env1 b1 u t1 f1 d1 st = (st1, none))
    (hs2 : install_local env2 b2 u t2 f2 d2 st1 = (st2, none)) :
    resolve_local st2 u (some t1) = .error .fileNotFound ∧
    resolve_local st2 u (some t2) = .ok u ∧
    lookupPkg st2 u = some b2 := by
  have hm2' : markerName u t2 ∉ st1.markers := by
    rcases install_success_cases env1 b1 u t1 f1 d1 st st1 hs1 with ⟨-, -, rfl⟩ | rfl
    · exact hm2
    · intro hmem
      simp only [installedState] at hmem
      rcases List.mem_cons.mp hmem with heq | hmem2
      · exact h12 (markerName_inj_tag u t2 t1 heq).symm
      · exact not_mem_removeMarkers u t2 st.markers hmem2
  rcases install_success_cases env2 b2 u t2 f2 d2 st1 st2 hs2 with ⟨hm, -, -⟩ | rfl
  · exact absurd hm hm2'
  have hpkg : pkgExists (installedState b2 u t2 st1) u = true :=
    pkgExists_cons_self u b2 _ _ _
  have ht1 : t1.isEmpty = false := by
    cases t1 with
    | nil => exact absurd rfl h1e
    | cons c cs => rfl
  have hne : markerName u t1 ∉ (installedState b2 u t2 st1).markers := by
    intro hmem
    simp only [installedState] at hmem
    rcases List.mem_cons.mp hmem with heq | hmem2
    · exact h12 (markerName_inj_tag u t1 t2 heq)
    · exact not_mem_removeMarkers u t1 st1.markers hmem2
  have hmem2 : markerName u t2 ∈ (installedState b2 u t2 st1).markers := by
    simp [installedState]
  refine ⟨?_, ?_, ?_⟩
  · simp [resolve_local, hpkg, tagTruthy, ht1, hne]
  · simp [resolve_local, hpkg, tagTruthy, hmem2]
  · simp [lookupPkg, installedState, List.find?_cons]

/-- Witness for C5 amended at concrete nonempty distinct tags. -/
theorem c5_witness :
    (['v', '1'] : Str) ≠ ['v', '2'] ∧ (['v', '1'] : Str) ≠ [] ∧
    markerName ['a'] ['v', '2'] ∉ emptyHub.markers ∧
    resolve_local (installedState bSecond ['a'] ['v', '2']
        (installedState bPlain ['a'] ['v', '1'] emptyHub)) ['a'] (some ['v', '1'])
      = .error .fileNotFound ∧
    resolve_local (installedState bSecond ['a'] ['v', '2']
        (installedState bPlain ['a'] ['v', '1'] emptyHub)) ['a'] (some ['v', '2'])
      = .ok ['a'] :=
  ⟨by decide, by decide, by decide,
    (c5_latest_tag_wins envOk envOk bPlain bSecond ['a'] ['v', '1'] ['v', '2']
      false false false false emptyHub
      (installedState bPlain ['a'] ['v', '1'] emptyHub)
      (installedState bSecond ['a'] ['v', '2']
        (installedState bPlain ['a'] ['v', '1'] emptyHub))
      (by decide) (by decide) (by decide) (by decide) (by decide)).1,
    (c5_latest_tag_wins envOk envOk bPlain bSecond ['a'] ['v', '1'] ['v', '2']
      false false false false emptyHub
      (installedState bPlain ['a'] ['v', '1'] emptyHub)
      (installedState bSecond ['a'] ['v', '2']
        (installedState bPlain ['a'] ['v', '1'] emptyHub))
      (by decide) (by decide) (by decide) (by decide) (by decide)).2.1⟩

/-- Counterexample to claim C3: on a working directory whose key file exists
but is unparsable, `dump_secret` silently writes nothing (the parse failure
is swallowed by its try/except) and the subsequent `load_secret` raises
instead of returning the dumped pair, so dump followed by load does not
return the dumped values on every working directory. -/
theorem c3_counterexample :
    parseKeyLine ['b', 'a', 'd'] = none ∧
    dump_secret ⟨['i'], ['k']⟩ ⟨some ['b', 'a', 'd'], []⟩ ['p'] ['s']
      = ⟨some ['b', 'a', 'd'], []⟩ ∧
    load_secret (dump_secret ⟨['i'], ['k']⟩ ⟨some ['b', 'a', 'd'], []⟩ ['p'] ['s'])
      = .error () :=
  ⟨by decide, by decide, rfl⟩

/-- Claim C3 amended: dump followed by load returns exactly the dumped public
id and secret whenever the working directory's key file is absent (the dump
generates and persists a fresh identity and key, which the real generators
make nonempty and whitespace-free) or present and parsable (the stored key is
reused); and load on a working directory where dump was never called returns
empty without raising.  When the key file exists but is unparsable the
roundtrip fails: dump writes nothing and load raises. -/
theorem c3_dump_load_roundtrip (env : VaultEnv) (st : VaultState) (pubId sec : Str) :
    (st.keyFile = none → env.freshId ≠ [] → noWs env.freshId →
      env.freshKey ≠ [] → noWs env.freshKey →
      load_secret (dump_secret env st pubId sec) = .ok (some pubId, some sec)) ∧
    (∀ line a k, st.keyFile = some line → parseKeyLine line = some (a, k) →
      load_secret (dump_secret env st pubId sec) = .ok (some pubId, some sec)) ∧
    (st.keyFile = none → load_secret st = .ok (none, none)) := by
  refine ⟨?_, ?_, ?_⟩
  · intro h0 hid hidw hkey hkeyw
    have hd : dump_secret env st pubId sec
        = writeRecord { st with keyFile := some (env.freshId ++ '\t' :: env.freshKey) }
            env.freshId pubId (fernetEncrypt env.freshKey sec) := by
      simp [dump_secret, h0]
    rw [hd]
    simp [load_secret, writeRecord,
      parse_keyline env.freshId env.freshKey hid hkey hidw hkeyw,
      List.find?_cons, fernet_roundtrip, fernetEncrypt_not_empty]
  · intro line a k h0 hp
    have hd : dump_secret env st pubId sec
        = writeRecord st a pubId (fernetEncrypt k sec) := by
      simp [dump_secret, h0, hp]
    rw [hd]
    simp [load_secret, writeRecord, h0, hp,
      List.find?_cons, fernet_roundtrip, fernetEncrypt_not_empty]
  · intro h0
    simp [load_secret, h0]

/-- Witness for C3 amended: the fresh-directory roundtrip, the roundtrip over
an existing parsable key file, and the empty load, all at concrete inputs. -/
theorem c3_witness :
    ((['i'] : Str) ≠ [] ∧ noWs ['i'] ∧ (['k'] : Str) ≠ [] ∧ noWs ['k'] ∧
      parseKeyLine (['i'] ++ '\t' :: ['k']) = some (['i'], ['k'])) ∧
    load_secret (dump_secret ⟨['i'], ['k']⟩ ⟨none, []⟩ ['p'] ['s'])
      = .ok (some ['p'], some ['s']) ∧
    load_secret (dump_secret ⟨['x'], ['y']⟩
        ⟨some (['i'] ++ '\t' :: ['k']), []⟩ ['p'] ['s'])
      = .ok (some ['p'], some ['s']) ∧
    load_secret (⟨none, []⟩ : VaultState) = .ok (none, none) :=
  ⟨by decide,
    (c3_dump_load_roundtrip ⟨['i'], ['k']⟩ ⟨none, []⟩ ['p'] ['s']).1 rfl
      (by decide) (by decide) (by decide) (by decide),
    (c3_dump_load_roundtrip ⟨['x'], ['y']⟩
        ⟨some (['i'] ++ '\t' :: ['k']), []⟩ ['p'] ['s']).2.1
      (['i'] ++ '\t' :: ['k']) ['i'] ['k'] rfl (by decide),
    (c3_dump_load_roundtrip ⟨['i'], ['k']⟩ ⟨none, []⟩ ['p'] ['s']).2.2 rfl⟩

/-- Counterexample to claim C6: on a working directory whose key file exists
but cannot be parsed (no tab separator, so the two-variable unpacking of
`split` raises `ValueError`), `load_secret` raises instead of returning
empty; the code has no try/except around the parse, unlike `dump_secret`. -/
theorem c6_counterexample :
    parseKeyLine ['n', 'o', 'k', 'e', 'y'] = none ∧
    load_secret ⟨some ['n', 'o', 'k', 'e', 'y'], []⟩ = .error () :=
  ⟨by decide, rfl⟩

/-- Claim C6 amended: `load_secret` returns empty (without raising) when the
key file is absent, but when the key file exists and cannot be parsed the
exception propagates to the caller. -/
theorem c6_load_absent_or_bad (st : VaultState) :
    (st.keyFile = none → load_secret st = .ok (none, none)) ∧
    (∀ line, st.keyFile = some line → parseKeyLine line = none →
        load_secret st = .error ()) := by
  constructor
  · intro h
    simp [load_secret, h]
  · intro line h hp
    simp [load_secret, h, hp]

/-- Witness for C6 amended: the absent-file branch at a concrete state. -/
theorem c6_witness :
    (⟨none, []⟩ : VaultState).keyFile = none ∧
    load_secret ⟨none, []⟩ = .ok (none, none) :=
  ⟨rfl, (c6_load_absent_or_bad ⟨none, []⟩).1 rfl⟩

/-- Claim C9: the identity/key file of a working directory is written at most
once.  The first dump that finds no key file persists the fresh identity and
key as the file's single line; any dump that finds the file present leaves
its content unchanged, and a dump that finds an unparsable key file silently
changes nothing at all (no record written either). -/
theorem c9_keyfile_written_once (env : VaultEnv) (st : VaultState) (u8 sec : Str) :
    (st.keyFile = none →
      (dump_secret env st u8 sec).keyFile
        = some (env.freshId ++ '\t' :: env.freshKey)) ∧
    (∀ line, st.keyFile = some line →
      (dump_secret env st u8 sec).keyFile = some line) ∧
    (∀ line, st.keyFile = some line → parseKeyLine line = none →
      dump_secret env st u8 sec = st) := by
  refine ⟨?_, ?_, ?_⟩
  · intro h
    simp [dump_secret, h, writeRecord]
  · intro line h
    cases hp : parseKeyLine line with
    | none => simp [dump_secret, h, hp]
    | some p =>
      obtain ⟨a, k⟩ := p
      simp [dump_secret, h, hp, writeRecord]
  · intro line h hp
    simp [dump_secret, h, hp]

/-- Witness for C9: a dump onto an existing key file keeps the file content,
and a dump onto a fresh directory writes the generated line. -/
theorem c9_witness :
    (⟨some ['x'], []⟩ : VaultState).keyFile = some ['x'] ∧
    (dump_secret ⟨['i'], ['k']⟩ ⟨some ['x'], []⟩ ['p'] ['s']).keyFile = some ['x'] ∧
    (dump_secret ⟨['i'], ['k']⟩ ⟨none, []⟩ ['p'] ['s']).keyFile
      = some (['i'] ++ '\t' :: ['k']) :=
  ⟨rfl,
    (c9_keyfile_written_once ⟨['i'], ['k']⟩ ⟨some ['x'], []⟩ ['p'] ['s']).2.1 ['x'] rfl,
    (c9_keyfile_written_once ⟨['i'], ['k']⟩ ⟨none, []⟩ ['p'] ['s']).1 rfl⟩

/-- Counterexample to claim C7: the pair with id a and tag 1 is installed
(`exist_local` is true), yet `list_local` returns no entry for it, because
the glob used by the code is the narrower `*-v*.dist-info`, not the naming
convention id-tag.dist-info; the tag's spelling does matter. -/
theorem c7_counterexample :
    exist_local ⟨[(['a'], bPlain)], [markerName ['a'] ['1']], 1⟩ ['a'] (some ['1'])
      = true ∧
    list_local ⟨[(['a'], bPlain)], [markerName ['a'] ['1']], 1⟩ = [] := by decide

/-- Claim C7 amended: `list_local` returns exactly the marker directory
names (not parsed id and tag pairs) that match the glob `*-v*.dist-info`,
i.e. those that contain a hyphen followed by the letter v before the
`.dist-info` suffix; markers of installed pairs whose tag spelling produces
no such segment are omitted. -/
theorem c7_list_glob (st : HubState) (n : Str) :
    n ∈ list_local st ↔
      n ∈ st.markers ∧ ∃ a b, n = a ++ '-' :: 'v' :: (b ++ distInfo) := by
  simp only [list_local, List.mem_filter, hasTagGlob_iff]

/-- Counterexample to claim C8: when the copy of the manifest descriptor
fails, the whole install fails: the state is rolled back (no package
directory, no marker, even though unpacking and marker creation succeeded)
and the copy error propagates, where the claim promised a best-effort copy
that cannot fail the install. -/
theorem c8_counterexample :
    bMan.hasManifest = true ∧
    install_local envManifestFail bMan ['a'] ['v', '1'] false false emptyHub
      = (⟨[], [], 1⟩, some PyErr.copyError) := by decide

/-- Claim C8 amended: the manifest copy happens inside the try block, so its
failure is fatal: the install rolls back (removing the package directory and
the marker it had just created) and the copy error is raised to the caller. -/
theorem c8_manifest_copy_fatal (env : Env) (b : Bundle) (u t : Str) (f : Bool)
    (st : HubState) (e : PyErr)
    (hno : markerName u t ∉ st.markers)
    (hu : env.unpack = none) (hm : env.mkdirM = none)
    (hman : b.hasManifest = true) (hc : env.copyManifest = some e) :
    install_local env b u t f false st
      = (⟨removePkgs u st.pkgs, removeMarkers u st.markers, st.unpackCount + 1⟩,
         some e) := by
  unfold install_local
  rw [if_neg (by simp [hno])]
  have hb : installBody env b u t false (removeAll u st)
      = (installedState b u t st, some e) := by
    have h2 : installBody env b u t false (removeAll u st) = depsStep env b false
        (addMarker { removeAll u st with
                     pkgs := (u, b) :: removePkgs u (removeAll u st).pkgs,
                     unpackCount := (removeAll u st).unpackCount + 1 }
          (markerName u t)) := by
      simp [installBody, hu, hm]
    rw [h2, cleaned_body_state]
    simp [depsStep, manifestStep, hman, hc]
  rw [hb]
  exact rollback_installed b u t st e

/-- Witness for C8 amended at a concrete input. -/
theorem c8_witness :
    (markerName ['a'] ['v', '1'] ∉ emptyHub.markers ∧
      envManifestFail.unpack = none ∧ envManifestFail.mkdirM = none ∧
      bMan.hasManifest = true ∧ envManifestFail.copyManifest = some PyErr.copyError) ∧
    install_local envManifestFail bMan ['a'] ['v', '1'] false false emptyHub
      = (⟨removePkgs ['a'] emptyHub.pkgs, removeMarkers ['a'] emptyHub.markers,
          emptyHub.unpackCount + 1⟩, some PyErr.copyError) :=
  ⟨⟨by decide, rfl, rfl, rfl, rfl⟩,
    c8_manifest_copy_fatal envManifestFail bMan ['a'] ['v', '1'] false emptyHub
      PyErr.copyError (by decide) rfl rfl rfl rfl⟩

/-- Counterexample to claim C10: the identifier a-b begins with the
identifier a followed by a hyphen, so its marker a-b-v1.dist-info matches the
cleanup glob a-*.dist-info; `uninstall_local` of a deletes the marker that
belongs to a-b (its package directory survives). -/
theorem c10_counterexample :
    markerName ['a', '-', 'b'] ['v', '1']
      ∈ (⟨[(['a', '-', 'b'], bPlain)],
          [markerName ['a', '-', 'b'] ['v', '1']], 0⟩ : HubState).markers ∧
    (uninstall_local ['a']
        ⟨[(['a', '-', 'b'], bPlain)],
         [markerName ['a', '-', 'b'] ['v', '1']], 0⟩).markers = [] := by decide

/-- Claim C10 amended: `uninstall_local u1` and the cleanup phase of
`install_local` for u1 never touch the package directory of a distinct u2,
and they leave every marker of u2 unchanged exactly when u2's marker name
does not put u1 followed by a hyphen at its front; but when u2 literally
begins with u1 and a hyphen, u2's markers match the glob `u1-*.dist-info`
and are deleted. -/
theorem c10_uninstall_frame (u1 u2 t2 : Str) (st : HubState) :
    (u2 ≠ u1 → lookupPkg (uninstall_local u1 st) u2 = lookupPkg st u2) ∧
    (¬ (u1 ++ ['-']) <+: (u2 ++ '-' :: t2) →
      (markerName u2 t2 ∈ (uninstall_local u1 st).markers ↔
        markerName u2 t2 ∈ st.markers)) ∧
    (∀ x, u2 = u1 ++ '-' :: x →
      markerName u2 t2 ∉ (uninstall_local u1 st).markers) ∧
    (∀ env b t f d st' r, u2 ≠ u1 → ¬ (u1 ++ ['-']) <+: (u2 ++ '-' :: t2) →
      install_local env b u1 t f d st = (st', r) →
      lookupPkg st' u2 = lookupPkg st u2 ∧
        (markerName u2 t2 ∈ st'.markers ↔ markerName u2 t2 ∈ st.markers)) := by
  have hmd : ∀ _h : ¬ (u1 ++ ['-']) <+: (u2 ++ '-' :: t2),
      matchDist u1 (markerName u2 t2) = false := by
    intro h
    cases hx : matchDist u1 (markerName u2 t2) with
    | true => exact absurd (matchDist_gives_front u1 u2 t2 hx) h
    | false => rfl
  have hmarkers : ∀ _h : ¬ (u1 ++ ['-']) <+: (u2 ++ '-' :: t2), ∀ ms : List Str,
      (markerName u2 t2 ∈ removeMarkers u1 ms ↔ markerName u2 t2 ∈ ms) := by
    intro h ms
    rw [mem_removeMarkers]
    exact ⟨fun hx => hx.1, fun hx => ⟨hx, hmd h⟩⟩
  refine ⟨?_, ?_, ?_, ?_⟩
  · intro h
    unfold lookupPkg
    have he : (uninstall_local u1 st).pkgs = removePkgs u1 st.pkgs := rfl
    rw [he, find?_removePkgs_ne u1 u2 st.pkgs h]
  · intro h
    exact hmarkers h st.markers
  · intro x hx hmem
    rw [uninstall_local, removeAll] at hmem
    have hm2 := (mem_removeMarkers u1 (markerName u2 t2) st.markers).mp hmem
    rw [matchDist_of_hyphen_ext u1 u2 t2 x hx] at hm2
    exact absurd hm2.2 (by simp)
  · intro env b t f d st' r hne hpre hinst
    have hne1 : markerName u1 t ≠ markerName u2 t2 :=
      markerName_ne_of_no_ext u1 u2 t t2 hpre
    cases r with
    | none =>
      rcases install_success_cases env b u1 t f d st st' hinst with ⟨-, -, rfl⟩ | rfl
      · exact ⟨rfl, Iff.rfl⟩
      · constructor
        · unfold lookupPkg
          have he : (installedState b u1 t st).pkgs
              = (u1, b) :: removePkgs u1 st.pkgs := rfl
          rw [he, List.find?_cons, show (decide ((u1, b).1 = u2)) = false from
            decide_eq_false fun heq => hne heq.symm]
          rw [find?_removePkgs_ne u1 u2 st.pkgs hne]
        · have he : (installedState b u1 t st).markers
              = markerName u1 t :: removeMarkers u1 st.markers := rfl
          rw [he, List.mem_cons]
          constructor
          · intro hx
            rcases hx with hx | hx
            · exact absurd hx.symm hne1
            · exact (hmarkers hpre st.markers).mp hx
          · intro hx
            exact Or.inr ((hmarkers hpre st.markers).mpr hx)
    | some e =>
      obtain ⟨h1, h2, -⟩ := install_fail_state env b u1 t f d st st' e hinst
      constructor
      · unfold lookupPkg
        rw [h1, find?_removePkgs_ne u1 u2 st.pkgs hne]
      · rw [h2]
        exact hmarkers hpre st.markers

/-- Witness for C10 amended: concrete identifiers where u2 is not an
extension of u1 by a hyphen, so its marker survives uninstall, and the
hyphen-extension instance through conjunct three. -/
theorem c10_witness :
    (¬ (['a'] ++ ['-']) <+: (['a', 'b'] ++ '-' :: (['v', '1'] : Str))) ∧
    (markerName ['a', 'b'] ['v', '1'] ∈
        (uninstall_local ['a']
          ⟨[], [markerName ['a', 'b'] ['v', '1']], 0⟩).markers ↔
      markerName ['a', 'b'] ['v', '1'] ∈
        (⟨[], [markerName ['a', 'b'] ['v', '1']], 0⟩ : HubState).markers) ∧
    markerName ['a', '-', 'b'] ['v', '1'] ∉
      (uninstall_local ['a']
        ⟨[], [markerName ['a', '-', 'b'] ['v', '1']], 0⟩).markers :=
  ⟨by decide,
    (c10_uninstall_frame ['a'] ['a', 'b'] ['v', '1']
      ⟨[], [markerName ['a', 'b'] ['v', '1']], 0⟩).2.1 (by decide),
    (c10_uninstall_frame ['a'] ['a', '-', 'b'] ['v', '1']
      ⟨[], [markerName ['a', '-', 'b'] ['v', '1']], 0⟩).2.2.1 ['b'] rfl⟩
